import Mathlib

/-!
Verification development for the `dask_worker` command-line launcher
(`distributed/cli/dask_worker.py`).

The Python source is shallowly embedded below.  Pure fragments (the
resource/lifetime mini-parser, option validation, thread-count defaulting)
become Lean functions; the stateful fragments (the signal handler, the
self-retirement coroutine, the teardown sequence, the bounded polling loop)
become functions from an explicit environment (instance snapshots, outcome
oracles, a monotone clock) to event traces or results.  Python machine
floats are modelled as rationals restricted to the finite decimal /
scientific literal grammar (the `inf` / `nan` literals are outside the
modelled grammar); Python exceptions become `Except` / `Option` values.
-/

namespace DaskWorker

/-! ## Tokenization: `s.replace(',', ' ').split()` and `pair.split('=')` -/

/-- Python whitespace characters recognised by `str.split()` (no-argument
form), as far as ASCII input is concerned. -/
def pyIsSpace (c : Char) : Bool :=
  c = ' ' || c = '\t' || c = '\n' || c = '\r' || c = '\x0b' || c = '\x0c'

/-- The character substitution performed by `s.replace(',', ' ')`. -/
def commaToSpace (c : Char) : Char :=
  if c = ',' then ' ' else c

/-- Accumulator-based splitting on a whitespace predicate, dropping empty
segments, exactly like Python `str.split()` with no argument. -/
def splitWsAux : List Char → List Char → List (List Char)
  | [], acc => if acc = [] then [] else [acc.reverse]
  | c :: cs, acc =>
      if pyIsSpace c then
        if acc = [] then splitWsAux cs []
        else acc.reverse :: splitWsAux cs []
      else splitWsAux cs (c :: acc)

/-- Python `str.split()` (no argument): maximal runs of non-whitespace. -/
def splitWs (l : List Char) : List (List Char) :=
  splitWsAux l []

/-- Splitting on every occurrence of a separator character, keeping empty
segments, exactly like Python `str.split(sep)` with a one-character `sep`. -/
def splitCharAux (p : Char → Bool) : List Char → List Char → List (List Char)
  | [], acc => [acc.reverse]
  | c :: cs, acc =>
      if p c then acc.reverse :: splitCharAux p cs []
      else splitCharAux p cs (c :: acc)

/-- Python `str.split(sep)` for a one-character separator predicate. -/
def splitChar (p : Char → Bool) (l : List Char) : List (List Char) :=
  splitCharAux p l []

/-- The token list produced from an option string: replace commas with
spaces, then split on whitespace. -/
def tokensOf (l : List Char) : List (List Char) :=
  splitWs (l.map commaToSpace)

/-! ## Python `float()` on the finite decimal / scientific literal grammar -/

/-- Numeric value of a digit list, most significant first. -/
def natOfDigits (l : List Char) : Nat :=
  l.foldl (fun a c => 10 * a + (c.toNat - 48)) 0

/-- A non-empty, all-digit character list. -/
def allDigits (l : List Char) : Bool :=
  decide (l ≠ []) && l.all Char.isDigit

/-- Powers of ten in `ℚ`, written recursively so concrete instances reduce
well in the kernel. -/
def pow10 : Nat → ℚ
  | 0 => 1
  | n + 1 => 10 * pow10 n

/-- Parse the mantissa of a float literal: digits with at most one decimal
point, at least one digit overall. -/
def parseMantissa (l : List Char) : Option ℚ :=
  match splitChar (fun c => c = '.') l with
  | [ip] => if allDigits ip then some ((natOfDigits ip : ℚ)) else none
  | [ip, fp] =>
      if (decide (ip ≠ []) || decide (fp ≠ [])) && ip.all Char.isDigit
          && fp.all Char.isDigit then
        some ((natOfDigits ip : ℚ) + (natOfDigits fp : ℚ) / pow10 fp.length)
      else none
  | _ => none

/-- Parse an exponent part (after `e`/`E`): optional sign, then digits. -/
def parseExpPart (l : List Char) : Option (Bool × Nat) :=
  match l with
  | '+' :: r => if allDigits r then some (false, natOfDigits r) else none
  | '-' :: r => if allDigits r then some (true, natOfDigits r) else none
  | r => if allDigits r then some (false, natOfDigits r) else none

/-- Python `float(s)` on un-padded tokens, restricted to finite decimal and
scientific literals: optional sign, mantissa, optional `e`/`E` exponent. -/
def parseFloat (l : List Char) : Option ℚ :=
  let (neg, body) :=
    match l with
    | '+' :: r => (false, r)
    | '-' :: r => (true, r)
    | r => (false, r)
  let signed : ℚ → ℚ := fun q => if neg then -q else q
  match splitChar (fun c => c = 'e' || c = 'E') body with
  | [m] => (parseMantissa m).map signed
  | [m, e] =>
      match parseMantissa m, parseExpPart e with
      | some q, some (eneg, en) =>
          some (signed (if eneg then q / pow10 en else q * pow10 en))
      | _, _ => none
  | _ => none

/-- `parseFloat` lifted to `String` values. -/
def parseFloatS (s : String) : Option ℚ :=
  parseFloat s.data

/-! ## `dict(pair.split('=') for pair in tokens)` and `valmap(float, d)` -/

/-- Split every token once into `[key, value]` on `=`; any token that does
not split into exactly two parts makes the Python `dict(...)` constructor
raise `ValueError`, modelled as `none`. -/
def splitPairs : List (List Char) → Option (List (String × String))
  | [] => some []
  | t :: rest =>
      match splitChar (fun c => c = '=') t with
      | [k, v] => (splitPairs rest).map (fun ps => (String.mk k, String.mk v) :: ps)
      | _ => none

/-- Python `d[k] = v` on an insertion-ordered association list: replace the
value in place if the key is present, otherwise append. -/
def insertDict (d : List (String × String)) (k v : String) : List (String × String) :=
  match d with
  | [] => [(k, v)]
  | (k0, v0) :: rest =>
      if k0 = k then (k0, v) :: rest else (k0, v0) :: insertDict rest k v

/-- Build a Python `dict` from a pair sequence: later pairs with the same
key override earlier ones, insertion order of first occurrence is kept. -/
def buildDictAux (acc : List (String × String)) : List (String × String) → List (String × String)
  | [] => acc
  | (k, v) :: rest => buildDictAux (insertDict acc k v) rest

/-- `dict(pairs)` for a list of key/value pairs. -/
def buildDict (ps : List (String × String)) : List (String × String) :=
  buildDictAux [] ps

/-- `valmap(float, d)`: coerce every value; any failure raises, modelled as
`none`. -/
def mapValuesFloat : List (String × String) → Option (List (String × ℚ))
  | [] => some []
  | (k, v) :: rest =>
      match parseFloatS v, mapValuesFloat rest with
      | some q, some r => some ((k, q) :: r)
      | _, _ => none

/-! ## The lifetime unit table and the two parsers -/

/-- The fixed unit-to-seconds table `to_secs` from the source. -/
def to_secs (k : String) : Option ℚ :=
  match k with
  | "d" => some 86400
  | "days" => some 86400
  | "h" => some 3600
  | "hours" => some 3600
  | "m" => some 60
  | "mins" => some 60
  | "minutes" => some 60
  | "s" => some 1
  | "secs" => some 1
  | "seconds" => some 1
  | _ => none

/-- `sum(to_secs[key] * val for key, val in lifetime.items())`: an unknown
key raises `KeyError`, modelled as `none`. -/
def sumSecs : List (String × ℚ) → Option ℚ
  | [] => some 0
  | (k, v) :: rest =>
      match to_secs k, sumSecs rest with
      | some f, some r => some (f * v + r)
      | _, _ => none

/-- Python exceptions that can escape the modelled fragments of `main`. -/
inductive PyError
  | valueError (msg : String)
  | zeroDivisionError
deriving DecidableEq

/-- The message of the `ValueError` re-raised by the lifetime parser. -/
def lifetimeErrMsg : String :=
  "Lifetime specifier not understood, see --help for the proper format."

/-- The `try` block of the lifetime parser: tokenize, split into pairs,
build a dict, coerce values to float, sum through `to_secs`.  Any
`KeyError` or `ValueError` inside is caught and re-raised as a single
`ValueError` with the descriptive message.  (Only called on a non-empty
`--lifetime` string; the emptiness guard lives in `mainStart`.) -/
def parseLifetime (s : String) : Except PyError ℚ :=
  match splitPairs (tokensOf s.data) with
  | none => .error (.valueError lifetimeErrMsg)
  | some ps =>
      match mapValuesFloat (buildDict ps) with
      | none => .error (.valueError lifetimeErrMsg)
      | some d2 =>
          match sumSecs d2 with
          | none => .error (.valueError lifetimeErrMsg)
          | some x => .ok x

/-- The resource parser for a non-empty `--resources` string: tokenize,
split into pairs, build a dict, coerce values to float.  Failures
(`ValueError` from `dict(...)` or `float(...)`) propagate uncaught; the
interpreter-generated message text is abstracted to a fixed string. -/
def parseResourcesCore (s : String) : Except PyError (List (String × ℚ)) :=
  match splitPairs (tokensOf s.data) with
  | none => .error (.valueError "malformed resources string")
  | some ps =>
      match mapValuesFloat (buildDict ps) with
      | none => .error (.valueError "malformed resources string")
      | some d2 => .ok d2

/-- The full `--resources` handling in `main`: an empty (falsy) string
yields `None`, a non-empty string is parsed into a mapping. -/
def buildResources (s : String) : Except PyError (Option (List (String × ℚ))) :=
  if s = "" then .ok none
  else (parseResourcesCore s).map some

/-! ## The start-up phase of `main` -/

/-- The command-line options of `main` that feed the modelled control flow.
Options that never branch or flow into the modelled fragments (http/bokeh
ports, memory limit, reconnect flag, pid file, local directory, temp
filename, host) are omitted; they only configure the opaque collaborators. -/
structure Args where
  scheduler : String
  worker_port : Int := 0
  nanny_port : Int := 0
  nthreads : Int := 0
  nprocs : Int := 1
  name : String := ""
  nanny : Bool := true
  resources : String := ""
  lifetime : String := ""
deriving DecidableEq

/-- The constructor arguments given to each `Nanny` / `Worker` instance
(the fields the claims inspect: thread count, alias, resource map, and the
`worker_port` keyword passed only in nanny mode). -/
structure InstanceCfg where
  ncores : Int
  name : String
  resources : Option (List (String × ℚ))
  worker_port_kw : Option Int
deriving DecidableEq

/-- What `main` has set up once all instances are constructed. -/
structure LaunchConfig where
  instances : List InstanceCfg
  lifetimeSecs : Option ℚ
deriving DecidableEq

/-- Outcome of the start-up phase: a fatal `exit(1)` (recording how many
instances had been constructed when it happened), an uncaught Python
exception, or a successful launch. -/
inductive StartOutcome
  | fatalExit (code : Nat) (constructed : Nat)
  | raised (e : PyError) (constructed : Nat)
  | launched (cfg : LaunchConfig)
deriving DecidableEq

/-- The start-up phase of `main`, in source order: the two `nprocs > 1`
validation checks, the thread-count default (`_ncores // nprocs`, Python
floor division, `ZeroDivisionError` when `nprocs == 0`), resource parsing,
lifetime parsing, then construction of `nprocs` identical instances.
`ncores` is the machine core count `_ncores`.  The pid-file write and the
service-registry construction sit between the validation and the parsers in
the source but neither branches nor raises in the modelled fragment. -/
def mainStart (a : Args) (ncores : Nat) : StartOutcome :=
  if a.nprocs > 1 && a.worker_port ≠ 0 then .fatalExit 1 0
  else if a.nprocs > 1 && a.name ≠ "" then .fatalExit 1 0
  else
    match (if a.nthreads = 0 then
             (if a.nprocs = 0 then none
              else some (Int.fdiv (ncores : Int) a.nprocs))
           else some a.nthreads) with
    | none => .raised .zeroDivisionError 0
    | some nthreads =>
        match buildResources a.resources with
        | .error e => .raised e 0
        | .ok res =>
            match (if a.lifetime = "" then Except.ok none
                   else (parseLifetime a.lifetime).map some) with
            | .error e => .raised e 0
            | .ok lt =>
                .launched
                  { instances :=
                      List.replicate a.nprocs.toNat
                        { ncores := nthreads
                          name := a.name
                          resources := res
                          worker_port_kw :=
                            if a.nanny then some a.worker_port else none }
                    lifetimeSecs := lt }

/-! ## The signal handler `handle_signal` -/

/-- Exceptions `shutil.rmtree(nanny.worker_dir)` can raise, classified by
the `except` clause of the handler; `otherExc` stands for any exception class
outside `(OSError, IOError, TypeError)`. -/
inductive RmtreeExc
  | osError
  | ioError
  | typeError
  | otherExc
deriving DecidableEq

/-- The exception classes named in `except (OSError, IOError, TypeError)`. -/
def caughtByHandler : RmtreeExc → Bool
  | .osError => true
  | .ioError => true
  | .typeError => true
  | .otherExc => false

/-- What the handler does after the cleanup loop. -/
inductive SignalAction
  | stopScheduled
  | exitProcess (code : Nat)
deriving DecidableEq

/-- Observable result of a completed `handle_signal` run. -/
structure SignalResult where
  removedDirs : List String
  action : SignalAction
deriving DecidableEq

/-- The `for nanny in global_nannies` cleanup loop: each entry is a worker
directory paired with the outcome of `shutil.rmtree` on it (`none` means
success).  Exceptions in the `except` tuple are swallowed and the loop goes
on; any other exception escapes the handler. -/
def rmtreeLoop : List (String × Option RmtreeExc) → Except RmtreeExc (List String)
  | [] => .ok []
  | (d, none) :: rest => (rmtreeLoop rest).map (fun r => d :: r)
  | (_, some e) :: rest =>
      if caughtByHandler e then rmtreeLoop rest else .error e

/-- `handle_signal`: best-effort removal of the working directory of every tracked nanny, then either schedule `loop.stop` (when `loop._running`) or call
`exit(1)`. -/
def handle_signal (nannies : List (String × Option RmtreeExc))
    (loopRunning : Bool) : Except RmtreeExc SignalResult :=
  (rmtreeLoop nannies).map
    (fun removed =>
      { removedDirs := removed
        action := if loopRunning then .stopScheduled else .exitProcess 1 })

/-! ## Instances, the retirement coroutine, and the main wait loop -/

/-- Lifecycle status of a worker / nanny instance. -/
inductive InstStatus
  | notStarted
  | running
  | closed
deriving DecidableEq

/-- Snapshot of one worker-or-nanny instance as seen by the launcher.
Liveness of the child process (`n.process` truthiness and
`isalive(n.process)`) is abstracted to booleans, per the model in the spec of
instances as opaque objects exposing a `process` handle; an unknown worker
address (`None`) is modelled as the empty string (both are falsy). -/
structure Inst where
  address : String
  worker_address : String
  worker_port : Int
  hasProcess : Bool
  processAlive : Bool
  status : InstStatus
deriving DecidableEq

/-- Observable actions of the `retire` coroutine, in execution order. -/
inductive RetireEvent
  | sleepSecs (secs : ℚ)
  | rpcRetireWorkers (workers : List String) (remove : Bool)
  | setRetiredFlag
deriving DecidableEq

/-- The worker list sent to `retire_workers`: in nanny mode, the worker
addresses of instances with a (truthy) process and a non-zero worker port;
otherwise the addresses of all instances. -/
def retireWorkerList (nannyFlag : Bool) (ns : List Inst) : List String :=
  if nannyFlag then
    (ns.filter (fun n => n.hasProcess && decide (n.worker_port ≠ 0))).map
      (fun n => n.worker_address)
  else ns.map (fun n => n.address)

/-- The body of the `retire` coroutine scheduled when a lifetime is
configured: sleep for the lifetime, issue `retire_workers` with
`remove=False`, then set the shared retirement flag `retired[0]`. -/
def retireTrace (nannyFlag : Bool) (ns : List Inst) (lifetime : ℚ) :
    List RetireEvent :=
  [.sleepSecs lifetime,
   .rpcRetireWorkers (retireWorkerList nannyFlag ns) false,
   .setRetiredFlag]

/-- The continuation condition of the main wait loop `run`:
`all of n.status != "closed" and not retired[0]`. -/
def mainLoopCond (ns : List Inst) (retired : Bool) : Bool :=
  ns.all (fun n => decide (n.status ≠ .closed)) && !retired

/-! ## The teardown sequence after the main wait loop exits -/

/-- Observable steps of the teardown sequence. -/
inductive TeardownStep
  | unregisterBatch (timeoutSecs : ℚ) (calls : List (String × Bool))
  | terminateProc (addr : String)
  | pollForExit
  | stopInst (addr : String)
deriving DecidableEq

/-- Result of running the teardown sequence: the steps that executed, in
order, whether the unregistration ran on a freshly created secondary loop,
and whether a `TimeoutError` escaped (aborting the remaining steps). -/
structure TeardownRun where
  freshLoopForUnregister : Bool
  steps : List TeardownStep
  raisedTimeout : Bool
deriving DecidableEq

/-- The unregistration calls issued inside `f()`: one
`unregister(address=n.worker_address, close=True)` per nanny-backed
instance with a truthy process and a truthy worker address. -/
def unregisterCalls (ns : List Inst) : List (String × Bool) :=
  (ns.filter (fun n => n.hasProcess && decide (n.worker_address ≠ ""))).map
    (fun n => (n.worker_address, true))

/-- The teardown sequence of `main` after the primary loop is closed, as a
function of the environment condition `unregOnTime` ("the batched
unregistration future completes within the 2-second `gen.with_timeout`
bound").  A fresh `IOLoop()` (`loop2`) always hosts the unregistration
coroutine.  In nanny mode, a timeout makes `gen.with_timeout` raise; no
handler encloses `loop2.run_sync(f)`, so the exception escapes `main` and
the force-terminate / poll / `stop()` steps never run.  Otherwise the
sequence continues: `terminate()` on every instance whose process is still
alive, the bounded poll for exit, then `stop()` on every instance. -/
def teardown (nannyFlag : Bool) (ns : List Inst) (unregOnTime : Bool) :
    TeardownRun :=
  if nannyFlag then
    if unregOnTime then
      { freshLoopForUnregister := true
        steps := .unregisterBatch 2 (unregisterCalls ns)
          :: (((ns.filter (fun n => n.processAlive)).map
                (fun n => TeardownStep.terminateProc n.address))
            ++ (.pollForExit :: ns.map (fun n => TeardownStep.stopInst n.address)))
        raisedTimeout := false }
    else
      { freshLoopForUnregister := true
        steps := [.unregisterBatch 2 (unregisterCalls ns)]
        raisedTimeout := true }
  else
    { freshLoopForUnregister := true
      steps := ns.map (fun n => TeardownStep.stopInst n.address)
      raisedTimeout := false }

/-! ## The bounded post-terminate polling loop -/

/-- One evaluation of the `while` condition
`any(isalive(n.process) for n in nannies) and time() < start + 1` at the
`k`-th iteration: `anyAlive k` is the aliveness oracle, `t k` the clock
reading, `t 0` the recorded `start`. -/
def pollCond (anyAlive : Nat → Bool) (t : Nat → ℚ) (k : Nat) : Bool :=
  anyAlive k && decide (t k < t 0 + 1)

/-- Fuel-indexed unfolding of the `while ...: sleep(0.1)` loop starting at
iteration `k`: `some k'` means the loop exited with the condition false
after `k' - k` sleeps, `none` that it was still running when the fuel ran
out. -/
def pollLoopAux (cond : Nat → Bool) : Nat → Nat → Option Nat
  | 0, _ => none
  | fuel + 1, k => if cond k then pollLoopAux cond fuel (k + 1) else some k

/-- The post-terminate polling loop with enough fuel for its worst case. -/
def pollLoop (anyAlive : Nat → Bool) (t : Nat → ℚ) : Option Nat :=
  pollLoopAux (pollCond anyAlive t) 11 0

/-! ## Helper lemmas -/

/-- Replacing commas by spaces is idempotent on characters. -/
theorem commaToSpace_idem (c : Char) :
    commaToSpace (commaToSpace c) = commaToSpace c := by
  unfold commaToSpace
  by_cases h : c = ','
  · simp [h]
  · simp [h]

/-- Replacing commas by spaces is idempotent on character lists. -/
theorem map_commaToSpace_idem (l : List Char) :
    (l.map commaToSpace).map commaToSpace = l.map commaToSpace := by
  induction l with
  | nil => rfl
  | cons c cs ih => simp [ih, commaToSpace_idem]

/-- `pow10` agrees with the monoid power. -/
theorem pow10_eq (n : Nat) : pow10 n = (10 : ℚ) ^ n := by
  induction n with
  | zero => rfl
  | succ m ih => rw [pow10, ih, pow_succ]; ring

/-- When every recorded exception is in the handled tuple, the cleanup loop
completes and returns exactly the successfully removed directories. -/
theorem rmtreeLoop_ok (ns : List (String × Option RmtreeExc))
    (h : ∀ p ∈ ns, p.2 ≠ some RmtreeExc.otherExc) :
    rmtreeLoop ns = .ok ((ns.filter (fun p => p.2 = none)).map Prod.fst) := by
  induction ns with
  | nil => rfl
  | cons p rest ih =>
      obtain ⟨d, o⟩ := p
      have hrest : ∀ q ∈ rest, q.2 ≠ some RmtreeExc.otherExc := by
        intro q hq
        exact h q (List.mem_cons_of_mem _ hq)
      match o with
      | none => simp [rmtreeLoop, ih hrest, Except.map]
      | some e =>
          have he : e ≠ RmtreeExc.otherExc := by
            intro hcon
            exact h (d, some e) (List.mem_cons_self _ _) (by rw [hcon])
          have hc : caughtByHandler e = true := by
            cases e <;> simp [caughtByHandler] at he ⊢
          simp [rmtreeLoop, hc, ih hrest]

/-- A token of the pair list that splits into exactly a key and a value
appears among the pairs. -/
theorem splitPairs_mem (ts : List (List Char)) :
    ∀ ps : List (String × String), splitPairs ts = some ps →
      ∀ t ∈ ts, ∀ k v : List Char,
        splitChar (fun c => c = '=') t = [k, v] →
        (String.mk k, String.mk v) ∈ ps := by
  induction ts with
  | nil =>
      intro ps hps t ht
      cases ht
  | cons t0 rest ih =>
      intro ps hps t ht k v hsplit
      unfold splitPairs at hps
      rcases List.mem_cons.mp ht with rfl | hmem
      · rw [hsplit] at hps
        rcases h0 : splitPairs rest with _ | ps0
        · rw [h0] at hps; cases hps
        · rw [h0] at hps
          simp only [Option.map_some] at hps
          cases hps
          exact List.mem_cons_self _ _
      · rcases h1 : splitChar (fun c => c = '=') t0 with _ | ⟨k0, tl⟩
        · rw [h1] at hps; cases hps
        · rw [h1] at hps
          rcases tl with _ | ⟨v0, tl2⟩
          · cases hps
          · rcases tl2 with _ | _
            · rcases h0 : splitPairs rest with _ | ps0
              · rw [h0] at hps; cases hps
              · rw [h0] at hps
                simp only [Option.map_some] at hps
                cases hps
                exact List.mem_cons_of_mem _ (ih ps0 h0 t hmem k v hsplit)
            · cases hps

/-- Keys already present survive a dict insertion. -/
theorem mem_keys_insertDict_left (d : List (String × String)) (k v k0 : String)
    (h : k0 ∈ d.map Prod.fst) : k0 ∈ (insertDict d k v).map Prod.fst := by
  induction d with
  | nil => cases h
  | cons p rest ih =>
      obtain ⟨kp, vp⟩ := p
      unfold insertDict
      by_cases hk : kp = k
      · simpa [hk] using h
      · rcases List.mem_cons.mp h with h0 | h0
        · simp [hk, h0]
        · simp [hk, ih h0]

/-- The inserted key is a key of the result. -/
theorem mem_keys_insertDict_self (d : List (String × String)) (k v : String) :
    k ∈ (insertDict d k v).map Prod.fst := by
  induction d with
  | nil => simp [insertDict]
  | cons p rest ih =>
      obtain ⟨kp, vp⟩ := p
      unfold insertDict
      by_cases hk : kp = k
      · simp [hk]
      · simp [hk, ih]

/-- Every key of the pair sequence (or of the accumulator) is a key of the
built dict. -/
theorem buildDictAux_mem_keys (ps : List (String × String)) :
    ∀ (acc : List (String × String)) (k : String),
      (k ∈ acc.map Prod.fst ∨ k ∈ ps.map Prod.fst) →
      k ∈ (buildDictAux acc ps).map Prod.fst := by
  induction ps with
  | nil =>
      intro acc k h
      rcases h with h | h
      · exact h
      · cases h
  | cons p rest ih =>
      intro acc k h
      obtain ⟨kp, vp⟩ := p
      unfold buildDictAux
      apply ih
      rcases h with h | h
      · exact Or.inl (mem_keys_insertDict_left acc kp vp k h)
      · rcases List.mem_cons.mp h with h0 | h0
        · rw [h0]
          exact Or.inl (mem_keys_insertDict_self acc kp vp)
        · exact Or.inr h0

/-- `valmap(float, d)` preserves the key sequence when it succeeds. -/
theorem mapValuesFloat_keys (d : List (String × String)) :
    ∀ d2 : List (String × ℚ), mapValuesFloat d = some d2 →
      d2.map Prod.fst = d.map Prod.fst := by
  induction d with
  | nil =>
      intro d2 h
      cases h
      rfl
  | cons p rest ih =>
      intro d2 h
      obtain ⟨kp, vp⟩ := p
      unfold mapValuesFloat at h
      rcases hf : parseFloatS vp with _ | q
      · rw [hf] at h; cases h
      · rw [hf] at h
        rcases hr : mapValuesFloat rest with _ | r
        · rw [hr] at h; cases h
        · rw [hr] at h
          cases h
          simp [ih r hr]

/-- A dict entry whose value does not coerce to float makes
`valmap(float, d)` raise. -/
theorem mapValuesFloat_none_of_bad (d : List (String × String))
    (k v : String) (hmem : (k, v) ∈ d) (hbad : parseFloatS v = none) :
    mapValuesFloat d = none := by
  induction d with
  | nil => cases hmem
  | cons p rest ih =>
      obtain ⟨kp, vp⟩ := p
      unfold mapValuesFloat
      rcases List.mem_cons.mp hmem with h0 | h0
      · cases h0
        simp [hbad]
      · rcases hf : parseFloatS vp with _ | q
        · rfl
        · simp [ih h0]

/-- A key outside the `to_secs` table makes the summation raise
`KeyError`. -/
theorem sumSecs_none_of_badkey (d2 : List (String × ℚ)) (k : String)
    (hmem : k ∈ d2.map Prod.fst) (hbad : to_secs k = none) :
    sumSecs d2 = none := by
  induction d2 with
  | nil => cases hmem
  | cons p rest ih =>
      obtain ⟨kp, q⟩ := p
      unfold sumSecs
      rcases List.mem_cons.mp hmem with h0 | h0
      · simp only [Prod.fst] at h0
        subst h0
        simp [hbad]
      · rcases ht : to_secs kp with _ | f
        · rfl
        · simp [ih h0]

/-- What a successful run of the fuel-indexed loop means: the loop stopped
at the first iteration whose condition is false. -/
theorem pollLoopAux_some_spec (cond : Nat → Bool) :
    ∀ fuel k k', pollLoopAux cond fuel k = some k' →
      cond k' = false ∧ k ≤ k' ∧ ∀ j, k ≤ j → j < k' → cond j = true := by
  intro fuel
  induction fuel with
  | zero =>
      intro k k' h
      cases h
  | succ f ih =>
      intro k k' h
      unfold pollLoopAux at h
      by_cases hc : cond k = true
      · rw [if_pos hc] at h
        obtain ⟨h1, h2, h3⟩ := ih (k + 1) k' h
        refine ⟨h1, le_trans (Nat.le_succ k) h2, ?_⟩
        intro j hj1 hj2
        rcases Nat.eq_or_lt_of_le hj1 with rfl | hlt
        · exact hc
        · exact h3 j hlt hj2
      · rw [if_neg hc] at h
        cases h
        refine ⟨by simpa using hc, le_refl _, ?_⟩
        intro j hj1 hj2
        omega

/-- A false condition within the fuel horizon makes the loop stop. -/
theorem pollLoopAux_term (cond : Nat → Bool) (m : Nat) (hm : cond m = false) :
    ∀ fuel k, k ≤ m → m < k + fuel →
      ∃ k', pollLoopAux cond fuel k = some k' := by
  intro fuel
  induction fuel with
  | zero =>
      intro k h1 h2
      omega
  | succ f ih =>
      intro k h1 h2
      unfold pollLoopAux
      by_cases hc : cond k = true
      · rw [if_pos hc]
        have hne : k ≠ m := by
          intro hkm
          rw [hkm, hm] at hc
          cases hc
        exact ih (k + 1) (by omega) (by omega)
      · rw [if_neg hc]
        exact ⟨k, rfl⟩

/-- Inversion of a successful launch: the validation checks passed, a
thread count was computed, both parsers succeeded, and the configuration is
`nprocs` copies of one instance configuration built from them. -/
theorem mainStart_launched_inv (a : Args) (ncores : Nat) (cfg : LaunchConfig)
    (hl : mainStart a ncores = .launched cfg) :
    ∃ (nthreads : Int) (res : Option (List (String × ℚ))) (lt : Option ℚ),
      (if a.nthreads = 0 then
         (if a.nprocs = 0 then none
          else some (Int.fdiv (ncores : Int) a.nprocs))
       else some a.nthreads) = some nthreads
      ∧ buildResources a.resources = .ok res
      ∧ cfg = { instances :=
                  List.replicate a.nprocs.toNat
                    { ncores := nthreads
                      name := a.name
                      resources := res
                      worker_port_kw :=
                        if a.nanny then some a.worker_port else none }
                lifetimeSecs := lt } := by
  unfold mainStart at hl
  split at hl
  · exact absurd hl (by simp)
  · split at hl
    · exact absurd hl (by simp)
    · split at hl
      · exact absurd hl (by simp)
      · rename_i nthreads hnt
        split at hl
        · exact absurd hl (by simp)
        · rename_i res hres
          split at hl
          · exact absurd hl (by simp)
          · rename_i lt hlt
            refine ⟨nthreads, res, lt, hnt, hres, ?_⟩
            have := hl.symm
            injection this

end DaskWorker

open DaskWorker

/-! ## Claim theorems -/

/-- C1: for every invocation with `nprocs > 1`, a non-zero explicit
`--worker-port` or a non-empty `--name` makes `main` exit fatally with
status 1 before any worker or nanny instance is constructed. -/
theorem C1_multiproc_port_name_rejected (a : Args) (ncores : Nat)
    (hn : 1 < a.nprocs) (hbad : a.worker_port ≠ 0 ∨ a.name ≠ "") :
    mainStart a ncores = .fatalExit 1 0 := by
  by_cases hwp : a.worker_port = 0
  · rcases hbad with hbad | hbad
    · exact absurd hwp hbad
    · simp [mainStart, hn, hwp, hbad]
  · simp [mainStart, hn, hwp]

/-- Witness for C1 at a concrete invocation: two processes with an explicit
worker port are rejected before construction. -/
theorem C1_multiproc_port_name_rejected_witness :
    mainStart { scheduler := "tcp://10.0.0.1:8786", worker_port := 8787,
                nprocs := 2 } 4 = .fatalExit 1 0 :=
  C1_multiproc_port_name_rejected _ 4 (by decide) (Or.inl (by decide))

/-- C2 (divergence demonstration): with one nanny-backed instance that has
a live process and a known worker address, a 2-second timeout of the
unregistration batch on the fresh secondary loop makes the `TimeoutError`
escape `main` — the recorded step list ends at the unregistration batch, so
the forced termination of the still-alive child never runs; when the batch
completes in time, the terminate step does run. -/
theorem C2_unregister_timeout_escalates :
    (teardown true [{ address := "tcp://10.0.0.2:9001",
                      worker_address := "tcp://10.0.0.2:9000",
                      worker_port := 9000, hasProcess := true,
                      processAlive := true, status := .running }] false)
      = { freshLoopForUnregister := true,
          steps := [.unregisterBatch 2 [("tcp://10.0.0.2:9000", true)]],
          raisedTimeout := true }
    ∧ TeardownStep.terminateProc "tcp://10.0.0.2:9001"
        ∈ (teardown true [{ address := "tcp://10.0.0.2:9001",
                            worker_address := "tcp://10.0.0.2:9000",
                            worker_port := 9000, hasProcess := true,
                            processAlive := true, status := .running }] true).steps := by
  constructor
  · rfl
  · simp [teardown, unregisterCalls]

/-- C3: the retirement coroutine issues `retire_workers` with
`remove=False` before setting the shared retirement flag (the flag-set is
the last event), and a set flag makes the continuation
condition false even while every instance still reports "running". -/
theorem C3_retirement_flow (nannyFlag : Bool) (ns ns2 : List Inst) (lt : ℚ)
    (hlt : lt ≠ 0) (hrun : ∀ n ∈ ns2, n.status = .running) :
    (∃ pre, retireTrace nannyFlag ns lt = pre ++ [RetireEvent.setRetiredFlag]
        ∧ RetireEvent.rpcRetireWorkers (retireWorkerList nannyFlag ns) false ∈ pre)
    ∧ (∀ ws rm, RetireEvent.rpcRetireWorkers ws rm ∈ retireTrace nannyFlag ns lt
        → rm = false)
    ∧ mainLoopCond ns2 true = false := by
  refine ⟨⟨[.sleepSecs lt, .rpcRetireWorkers (retireWorkerList nannyFlag ns) false],
      rfl, by simp⟩, ?_, ?_⟩
  · intro ws rm hmem
    simp only [retireTrace, List.mem_cons] at hmem
    rcases hmem with h | h | h | h
    · cases h
    · cases h; rfl
    · cases h
    · cases h
  · simp [mainLoopCond]

/-- A sample running nanny-backed instance used by the C3 witness. -/
def sampleInst : Inst :=
  { address := "tcp://h:1"
    worker_address := "tcp://h:2"
    worker_port := 2
    hasProcess := true
    processAlive := true
    status := .running }

/-- Witness for C3 at one running nanny-backed instance and a 10-second
lifetime. -/
theorem C3_retirement_flow_witness :
    (∃ pre, retireTrace true [sampleInst] 10
        = pre ++ [RetireEvent.setRetiredFlag]
        ∧ RetireEvent.rpcRetireWorkers (retireWorkerList true [sampleInst]) false
            ∈ pre)
    ∧ (∀ ws rm, RetireEvent.rpcRetireWorkers ws rm
          ∈ retireTrace true [sampleInst] 10 → rm = false)
    ∧ mainLoopCond [sampleInst] true = false :=
  C3_retirement_flow true [sampleInst] [sampleInst] 10 (by norm_num) (by decide)

/-- C4: the signal handler attempts `rmtree` on the working directory of every tracked
nanny, swallowing `OSError`, `IOError` and `TypeError`, and
then schedules a loop stop when the loop is running, or exits with status 1
otherwise. -/
theorem C4_signal_handler (ns : List (String × Option RmtreeExc))
    (running : Bool) (h : ∀ p ∈ ns, p.2 ≠ some RmtreeExc.otherExc) :
    handle_signal ns running =
      .ok { removedDirs := (ns.filter (fun p => p.2 = none)).map Prod.fst,
            action := if running then .stopScheduled else .exitProcess 1 } := by
  unfold handle_signal
  rw [rmtreeLoop_ok ns h]
  rfl

/-- Witness for C4: mixed outcomes with the loop not running remove only
the successful directory and exit with status 1. -/
theorem C4_signal_handler_witness :
    handle_signal [("w1", none), ("w2", some .osError), ("w3", some .ioError),
        ("w4", some .typeError)] false
      = .ok { removedDirs := ["w1"], action := .exitProcess 1 } :=
  (C4_signal_handler _ false (by decide)).trans rfl

/-- Under a monotone clock the reading at iteration `k` is at least `start`
plus `k` sleep intervals. -/
theorem clock_lower_bound (t : Nat → ℚ)
    (hstep : ∀ k, t k + 1 / 10 ≤ t (k + 1)) :
    ∀ k : Nat, t 0 + (k : ℚ) / 10 ≤ t k := by
  intro k
  induction k with
  | zero => simp
  | succ m ih =>
      have h1 : t 0 + ((m : ℚ) + 1) / 10 = (t 0 + (m : ℚ) / 10) + 1 / 10 := by
        ring
      calc t 0 + ((m + 1 : Nat) : ℚ) / 10
          = (t 0 + (m : ℚ) / 10) + 1 / 10 := by push_cast; ring
        _ ≤ t m + 1 / 10 := by linarith
        _ ≤ t (m + 1) := hstep m

/-- C9: whatever the child processes do, and whatever actual delays each
`sleep(0.1)` incurs (each at least 0.1 s), the post-terminate polling loop
exits after at most 10 sleep iterations — the condition
`time() < start + 1` is false by then — so shutdown never blocks
indefinitely at this step. -/
theorem C9_poll_loop_bounded (anyAlive : Nat → Bool) (t : Nat → ℚ)
    (hstep : ∀ k, t k + 1 / 10 ≤ t (k + 1)) :
    ∃ k, pollLoop anyAlive t = some k ∧ k ≤ 10
      ∧ pollCond anyAlive t k = false
      ∧ ∀ j, j < k → pollCond anyAlive t j = true := by
  have h10 : pollCond anyAlive t 10 = false := by
    have hge : t 0 + 1 ≤ t 10 := by
      have := clock_lower_bound t hstep 10
      have h10q : ((10 : Nat) : ℚ) / 10 = 1 := by norm_num
      rw [h10q] at this
      exact this
    have hnot : ¬ (t 10 < t 0 + 1) := not_lt.mpr hge
    simp [pollCond, hnot]
  obtain ⟨k, hk⟩ :=
    pollLoopAux_term (pollCond anyAlive t) 10 h10 11 0 (by omega) (by omega)
  obtain ⟨hfalse, _, hall⟩ :=
    pollLoopAux_some_spec (pollCond anyAlive t) 11 0 k hk
  have hle : k ≤ 10 := by
    by_contra hgt
    have : pollCond anyAlive t 10 = true := hall 10 (by omega) (by omega)
    rw [h10] at this
    cases this
  exact ⟨k, hk, hle, hfalse, fun j hj => hall j (Nat.zero_le j) hj⟩

/-- Witness for C9: children that never exit, clock advancing exactly 0.1 s
per iteration. -/
theorem C9_poll_loop_bounded_witness :
    ∃ k, pollLoop (fun _ => true) (fun k => (k : ℚ) / 10) = some k ∧ k ≤ 10
      ∧ pollCond (fun _ => true) (fun k => (k : ℚ) / 10) k = false
      ∧ ∀ j, j < k → pollCond (fun _ => true) (fun k => (k : ℚ) / 10) j = true :=
  C9_poll_loop_bounded (fun _ => true) (fun k => (k : ℚ) / 10)
    (by
      intro k
      show (k : ℚ) / 10 + 1 / 10 ≤ ((k + 1 : Nat) : ℚ) / 10
      push_cast
      ring_nf
      exact le_refl _)

/-- C5: `"GPU=2 MEM=10e9"` parses to the mapping `GPU ↦ 2, MEM ↦ 1e10`,
the comma form `"GPU=2,MEM=10e9"` parses to the same mapping, and in
general replacing commas with spaces before tokenizing leaves the parse
unchanged, so the comma- and space-separated forms parse identically. -/
theorem C5_resources_comma_space :
    parseResourcesCore "GPU=2 MEM=10e9"
      = .ok [("GPU", (2 : ℚ)), ("MEM", (10000000000 : ℚ))]
    ∧ parseResourcesCore "GPU=2,MEM=10e9"
      = .ok [("GPU", (2 : ℚ)), ("MEM", (10000000000 : ℚ))]
    ∧ ∀ s : String,
        parseResourcesCore (String.mk (s.data.map commaToSpace))
          = parseResourcesCore s := by
  refine ⟨?_, ?_, ?_⟩
  · have h : parseResourcesCore "GPU=2 MEM=10e9"
        = .ok [("GPU", ((2 : Nat) : ℚ)), ("MEM", ((10 : Nat) : ℚ) * pow10 9)] := rfl
    rw [h]
    refine congrArg Except.ok ?_
    norm_num [pow10_eq]
  · have h : parseResourcesCore "GPU=2,MEM=10e9"
        = .ok [("GPU", ((2 : Nat) : ℚ)), ("MEM", ((10 : Nat) : ℚ) * pow10 9)] := rfl
    rw [h]
    refine congrArg Except.ok ?_
    norm_num [pow10_eq]
  · intro s
    unfold parseResourcesCore
    have h : tokensOf (String.mk (s.data.map commaToSpace)).data
        = tokensOf s.data := by
      show tokensOf (s.data.map commaToSpace) = tokensOf s.data
      unfold tokensOf
      rw [map_commaToSpace_idem]
    rw [h]

/-- C6: `"d=1 h=2 m=3 s=4"` parses to 93784 seconds; the long unit names
parse through the same table, whose conversion factors are 86400, 3600, 60
and 1. -/
theorem C6_lifetime_sum :
    parseLifetime "d=1 h=2 m=3 s=4" = .ok (93784 : ℚ)
    ∧ parseLifetime "days=1 hours=2 minutes=3 seconds=4" = .ok (93784 : ℚ)
    ∧ to_secs "d" = some 86400 ∧ to_secs "h" = some 3600
    ∧ to_secs "m" = some 60 ∧ to_secs "s" = some 1 := by
  refine ⟨?_, ?_, rfl, rfl, rfl, rfl⟩
  · have h : parseLifetime "d=1 h=2 m=3 s=4"
        = .ok ((86400 : ℚ) * ((1 : Nat) : ℚ) + ((3600 : ℚ) * ((2 : Nat) : ℚ)
            + ((60 : ℚ) * ((3 : Nat) : ℚ) + ((1 : ℚ) * ((4 : Nat) : ℚ) + 0)))) := rfl
    rw [h]
    refine congrArg Except.ok ?_
    norm_num
  · have h : parseLifetime "days=1 hours=2 minutes=3 seconds=4"
        = .ok ((86400 : ℚ) * ((1 : Nat) : ℚ) + ((3600 : ℚ) * ((2 : Nat) : ℚ)
            + ((60 : ℚ) * ((3 : Nat) : ℚ) + ((1 : ℚ) * ((4 : Nat) : ℚ) + 0)))) := rfl
    rw [h]
    refine congrArg Except.ok ?_
    norm_num

/-- C7 (amended): a lifetime token whose key is outside the unit table
always forces the fatal `ValueError` with the descriptive message, and so
does a non-numeric value that survives the duplicate-key collapse of the dict;
a non-numeric value overridden by a later token with the same key is
silently discarded (see the counterexample). -/
theorem C7_lifetime_errors :
    (∀ (s : String) (t k v : List Char), t ∈ tokensOf s.data →
        splitChar (fun c => c = '=') t = [k, v] →
        to_secs (String.mk k) = none →
        parseLifetime s = .error (.valueError lifetimeErrMsg))
    ∧ (∀ (s : String) (ps : List (String × String)) (k v : String),
        splitPairs (tokensOf s.data) = some ps →
        (k, v) ∈ buildDict ps →
        parseFloatS v = none →
        parseLifetime s = .error (.valueError lifetimeErrMsg)) := by
  constructor
  · intro s t k v ht hsplit hbad
    rcases hps : splitPairs (tokensOf s.data) with _ | ps
    · simp [parseLifetime, hps]
    · have hmem : (String.mk k, String.mk v) ∈ ps :=
        splitPairs_mem _ ps hps t ht k v hsplit
      have hkey : String.mk k ∈ ps.map Prod.fst :=
        List.mem_map_of_mem Prod.fst hmem
      have hkey2 : String.mk k ∈ (buildDict ps).map Prod.fst :=
        buildDictAux_mem_keys ps [] _ (Or.inr hkey)
      rcases hmv : mapValuesFloat (buildDict ps) with _ | d2
      · simp [parseLifetime, hps, hmv]
      · have hkeys : d2.map Prod.fst = (buildDict ps).map Prod.fst :=
          mapValuesFloat_keys _ d2 hmv
        have hk2 : String.mk k ∈ d2.map Prod.fst := by
          rw [hkeys]
          exact hkey2
        have hsum : sumSecs d2 = none := sumSecs_none_of_badkey d2 _ hk2 hbad
        simp [parseLifetime, hps, hmv, hsum]
  · intro s ps k v hps hmem hbad
    have hmv : mapValuesFloat (buildDict ps) = none :=
      mapValuesFloat_none_of_bad _ k v hmem hbad
    simp [parseLifetime, hps, hmv]

/-- Witness for C7 (amended): the unrecognized unit `"x=5"` raises the
fatal error with the descriptive message, via the unknown-key branch. -/
theorem C7_lifetime_errors_witness :
    parseLifetime "x=5" = .error (.valueError lifetimeErrMsg) :=
  C7_lifetime_errors.1 "x=5" ['x', '=', '5'] ['x'] ['5']
    (by decide) (by decide) (by decide)

/-- Counterexample to C7 as stated: `"d=abc d=5"` contains the token
`d=abc` with the non-numeric value `abc`, yet parsing succeeds with
432000 seconds — the malformed token is silently overridden during the
duplicate-key collapse of the dict before float validation. -/
theorem C7_duplicate_key_counterexample :
    parseLifetime "d=abc d=5" = .ok (432000 : ℚ)
    ∧ ['d', '=', 'a', 'b', 'c'] ∈ tokensOf "d=abc d=5".data
    ∧ splitChar (fun c => c = '=') ['d', '=', 'a', 'b', 'c']
        = [['d'], ['a', 'b', 'c']]
    ∧ parseFloatS (String.mk ['a', 'b', 'c']) = none := by
  refine ⟨?_, by decide, by decide, by decide⟩
  have h : parseLifetime "d=abc d=5"
      = .ok ((86400 : ℚ) * ((5 : Nat) : ℚ) + 0) := rfl
  rw [h]
  refine congrArg Except.ok ?_
  norm_num

/-- C8: when `--nthreads` is unset (zero), every constructed instance gets
the machine core count floor-divided by `nprocs`. -/
theorem C8_default_nthreads (a : Args) (ncores : Nat) (cfg : LaunchConfig)
    (h0 : a.nthreads = 0) (hnp : 0 < a.nprocs)
    (hl : mainStart a ncores = .launched cfg) :
    ∀ i ∈ cfg.instances, i.ncores = Int.fdiv (ncores : Int) a.nprocs := by
  obtain ⟨nt, res, lt, hnt, hres, hcfg⟩ := mainStart_launched_inv a ncores cfg hl
  have hz : ¬ a.nprocs = 0 := by omega
  rw [if_pos h0, if_neg hz] at hnt
  have hnt2 : nt = Int.fdiv (ncores : Int) a.nprocs := by
    injection hnt with h
    exact h.symm
  intro i hi
  rw [hcfg] at hi
  rw [List.eq_of_mem_replicate hi]
  exact hnt2

/-- Witness for C8: `nthreads = 0`, `nprocs = 2`, 8 reported cores give
each instance `8 // 2 = 4` threads. -/
theorem C8_default_nthreads_witness :
    InstanceCfg.ncores
        { ncores := 4, name := "", resources := none, worker_port_kw := some 0 }
      = Int.fdiv (8 : Int) 2 :=
  C8_default_nthreads { scheduler := "tcp://10.0.0.1:8786", nprocs := 2 } 8
    { instances :=
        List.replicate 2
          { ncores := 4, name := "", resources := none, worker_port_kw := some 0 }
      lifetimeSecs := none }
    rfl (by decide) rfl
    { ncores := 4, name := "", resources := none, worker_port_kw := some 0 }
    (by decide)

/-- C10: an empty `--resources` string gives every instance constructor a
`None` resource argument, and a mapping is only ever built from a
non-empty resources string. -/
theorem C10_empty_resources_none (a : Args) (ncores : Nat) (cfg : LaunchConfig)
    (he : a.resources = "") (hl : mainStart a ncores = .launched cfg) :
    (∀ i ∈ cfg.instances, i.resources = none)
    ∧ ∀ (s : String) (m : List (String × ℚ)),
        buildResources s = .ok (some m) → s ≠ "" := by
  obtain ⟨nt, res, lt, hnt, hres, hcfg⟩ := mainStart_launched_inv a ncores cfg hl
  have hresnone : res = none := by
    rw [he] at hres
    have h2 : (Except.ok none : Except PyError (Option (List (String × ℚ))))
        = .ok res := by
      rw [← hres]
      rfl
    injection h2 with h3
    exact h3.symm
  constructor
  · intro i hi
    rw [hcfg] at hi
    rw [List.eq_of_mem_replicate hi]
    exact hresnone
  · intro s m hm hs
    rw [hs] at hm
    have h2 : (Except.ok none : Except PyError (Option (List (String × ℚ))))
        = .ok (some m) := by
      rw [← hm]
      rfl
    injection h2 with h3
    cases h3

/-- Witness for C10: the concrete launch with empty resources passes
`None` to the constructed instances. -/
theorem C10_empty_resources_none_witness :
    InstanceCfg.resources
        { ncores := 4, name := "", resources := none, worker_port_kw := some 0 }
      = none :=
  (C10_empty_resources_none { scheduler := "tcp://10.0.0.1:8786", nprocs := 2 } 8
    { instances :=
        List.replicate 2
          { ncores := 4, name := "", resources := none, worker_port_kw := some 0 }
      lifetimeSecs := none }
    rfl rfl).1
    { ncores := 4, name := "", resources := none, worker_port_kw := some 0 }
    (by decide)
